import Mathlib

/-!
Verification of the to-not-do command-line task tracker (Rust sources:
src/main.rs, src/cli.rs, src/error.rs, src/file_management.rs).

Shallow embedding conventions:
* `Uuid` and `NaiveDate` are modelled as `Nat` (an opaque identifier / the
  day ordinal); both serialize to JSON as their decimal string, standing in
  for the hyphenated UUID string and the YYYY-MM-DD date string.  No claim
  depends on the concrete textual shape of these leaves.
* File contents are `String`s; bytes are modelled at character level (all
  contents arising in this development are ASCII, one byte per character).
* The one on-disk file `task_manager.json` is threaded explicitly: a
  `DatabaseManager` value carries the current file contents (`file`) next to
  the in-memory `Database` (`db`), mirroring `db_path`/`db` in the source.
* Panics (`expect`) on unreadable/unparsable files are modelled by `Option`:
  `none` is a process abort.
-/

namespace ToNotDo

/-- Cargo package name, `env!("CARGO_PKG_NAME")` in src/file_management.rs. -/
def APP_NAME : String := "to-not-do"

/-- Cargo package version, `env!("CARGO_PKG_VERSION")`; the concrete semver
string is immaterial to every claim. -/
def VERSION : String := "0.1.0"

/-- Model of `uuid::Uuid`: an opaque identifier with decidable equality. -/
abbrev Uuid : Type := Nat

/-- Model of `chrono::NaiveDate`: the day ordinal, ordered by `≤`. -/
abbrev NaiveDate : Type := Nat

/-- Rust `TaskState` from src/cli.rs (derives Serialize/Deserialize/PartialEq). -/
inductive TaskState : Type where
  | Todo
  | InProgress
  | Done
deriving DecidableEq, Repr

/-- The serde serialization of a `TaskState` value: derived serde on a
fieldless enum without rename attributes writes the variant name itself. -/
def TaskState.serdeName : TaskState → String
  | .Todo => "Todo"
  | .InProgress => "InProgress"
  | .Done => "Done"

/-- Inverse used by the derived Deserialize impl. -/
def TaskState.fromSerdeName : String → Option TaskState
  | "Todo" => some .Todo
  | "InProgress" => some .InProgress
  | "Done" => some .Done
  | _ => none

/-- Rust `Task` from src/file_management.rs lines 28-35.  Fields are private in
the source, so outside that module tasks are built only via `Task.new`. -/
structure Task : Type where
  id : Uuid
  description : String
  state : TaskState
  created_at : NaiveDate
  updated_at : NaiveDate
deriving DecidableEq, Repr

/-- Rust `Task::new` (lines 48-56): fresh random id (passed explicitly here),
state `Todo`, both dates set to the current date `today`. -/
def Task.new (id : Uuid) (today : NaiveDate) (description : String) : Task :=
  { id := id
    description := description
    state := TaskState.Todo
    created_at := today
    updated_at := today }

/-- Rust `Task::set_state` (lines 58-61): new state, `updated_at` refreshed. -/
def Task.set_state (today : NaiveDate) (state : TaskState) (t : Task) : Task :=
  { t with state := state, updated_at := today }

/-- Rust `Task::set_description` (lines 63-66). -/
def Task.set_description (today : NaiveDate) (description : String) (t : Task) : Task :=
  { t with description := description, updated_at := today }

/-- Rust `Database` from src/file_management.rs lines 69-74. -/
structure Database : Type where
  name : String
  version : String
  tasks : List Task
deriving DecidableEq, Repr

/-- Rust `Database::default` (lines 76-84). -/
def Database.default : Database :=
  { name := APP_NAME, version := VERSION, tasks := [] }

/-- JSON string escaping as performed by serde_json for the characters that
can occur in this development (the `\\uXXXX` forms for other control
characters never arise here). -/
def escapeChar (c : Char) : String :=
  if c = '"' then "\\\""
  else if c = '\\' then "\\\\"
  else if c = '\n' then "\\n"
  else if c = '\t' then "\\t"
  else if c = '\r' then "\\r"
  else String.singleton c

def escapeString (s : String) : String :=
  String.join (s.data.map escapeChar)

/-- A JSON string literal. -/
def jstr (s : String) : String :=
  "\"" ++ escapeString s ++ "\""

/-- Rust `serde_json::to_writer` output (compact) of one `Task`: the derived
Serialize impl writes the fields in declaration order. -/
def Task.jsonCompact (t : Task) : String :=
  "\x7b\"id\":" ++ jstr (toString t.id)
    ++ ",\"description\":" ++ jstr t.description
    ++ ",\"state\":" ++ jstr t.state.serdeName
    ++ ",\"created_at\":" ++ jstr (toString t.created_at)
    ++ ",\"updated_at\":" ++ jstr (toString t.updated_at) ++ "\x7d"

/-- Compact serialization of a `Database` (used by `DatabaseManager::create`
via `serde_json::to_writer`). -/
def Database.jsonCompact (db : Database) : String :=
  "\x7b\"name\":" ++ jstr db.name
    ++ ",\"version\":" ++ jstr db.version
    ++ ",\"tasks\":[" ++ String.intercalate "," (db.tasks.map Task.jsonCompact) ++ "]\x7d"

/-- Rust `serde_json::to_string_pretty` output of one `Task`, as it appears
nested inside the `tasks` array (indentation depth 2, two-space indent). -/
def Task.jsonPretty (t : Task) : String :=
  "    \x7b\n      \"id\": " ++ jstr (toString t.id)
    ++ ",\n      \"description\": " ++ jstr t.description
    ++ ",\n      \"state\": " ++ jstr t.state.serdeName
    ++ ",\n      \"created_at\": " ++ jstr (toString t.created_at)
    ++ ",\n      \"updated_at\": " ++ jstr (toString t.updated_at)
    ++ "\n    \x7d"

/-- Rust `serde_json::to_string_pretty` of a `Database` (used by
`DatabaseManager::save`); serde_json prints an empty array as `[]`. -/
def Database.jsonPretty (db : Database) : String :=
  "\x7b\n  \"name\": " ++ jstr db.name
    ++ ",\n  \"version\": " ++ jstr db.version
    ++ ",\n  \"tasks\": "
    ++ (match db.tasks with
        | [] => "[]"
        | ts => "[\n" ++ String.intercalate ",\n" (ts.map Task.jsonPretty) ++ "\n  ]")
    ++ "\n\x7d"

/-! ### JSON values and the serde_json parser

`serde_json::from_reader` parses one JSON value and then requires that only
whitespace remains.  The storage files written by this program contain only
strings, arrays and objects as values (dates and uuids are serialized as
strings), so numeric literals are not modelled; `true`/`false`/`null` are
kept for generality. -/

inductive Json : Type where
  | str (s : String)
  | bool (b : Bool)
  | null
  | arr (elements : List Json)
  | obj (members : List (String × Json))
deriving Repr

def isWsChar (c : Char) : Bool :=
  c = ' ' || c = '\t' || c = '\n' || c = '\r'

def skipWs : List Char → List Char
  | [] => []
  | c :: cs => if isWsChar c then skipWs cs else c :: cs

/-- JSON escape sequences inverted (the `\\uXXXX` form never occurs in files
written by this program and is not modelled). -/
def unescapeChar (e : Char) : Option Char :=
  if e = 'n' then some '\n'
  else if e = 't' then some '\t'
  else if e = 'r' then some '\r'
  else if e = '"' ∨ e = '\\' ∨ e = '/' then some e
  else none

/-- Parse the body of a JSON string literal, after the opening quote; returns
the decoded characters and the input following the closing quote. -/
def parseStringChars : List Char → Option (List Char × List Char)
  | [] => none
  | '"' :: rest => some ([], rest)
  | '\\' :: e :: rest =>
      match unescapeChar e with
      | some c =>
          match parseStringChars rest with
          | some (s, r) => some (c :: s, r)
          | none => none
      | none => none
  | c :: rest =>
      match parseStringChars rest with
      | some (s, r) => some (c :: s, r)
      | none => none

mutual

/-- Parse one JSON value (fuel-indexed recursion; `read` supplies fuel larger
than any possible nesting of its input). -/
def parseValue : Nat → List Char → Option (Json × List Char)
  | 0, _ => none
  | fuel + 1, input =>
    match skipWs input with
    | '"' :: rest =>
        match parseStringChars rest with
        | some (s, r) => some (.str (String.mk s), r)
        | none => none
    | '[' :: rest =>
        match skipWs rest with
        | ']' :: r => some (.arr [], r)
        | rest2 =>
            match parseElements fuel rest2 with
            | some (xs, r) => some (.arr xs, r)
            | none => none
    | '{' :: rest =>
        match skipWs rest with
        | '}' :: r => some (.obj [], r)
        | rest2 =>
            match parseMembers fuel rest2 with
            | some (ms, r) => some (.obj ms, r)
            | none => none
    | 't' :: 'r' :: 'u' :: 'e' :: r => some (.bool true, r)
    | 'f' :: 'a' :: 'l' :: 's' :: 'e' :: r => some (.bool false, r)
    | 'n' :: 'u' :: 'l' :: 'l' :: r => some (.null, r)
    | _ => none

/-- Parse the elements of a non-empty JSON array, up to and including the
closing bracket. -/
def parseElements : Nat → List Char → Option (List Json × List Char)
  | 0, _ => none
  | fuel + 1, input =>
    match parseValue fuel input with
    | some (v, r) =>
        match skipWs r with
        | ',' :: r2 =>
            match parseElements fuel r2 with
            | some (vs, r3) => some (v :: vs, r3)
            | none => none
        | ']' :: r2 => some ([v], r2)
        | _ => none
    | none => none

/-- Parse the members of a non-empty JSON object, up to and including the
closing brace. -/
def parseMembers : Nat → List Char → Option (List (String × Json) × List Char)
  | 0, _ => none
  | fuel + 1, input =>
    match skipWs input with
    | '"' :: rest =>
        match parseStringChars rest with
        | some (k, r) =>
            match skipWs r with
            | ':' :: r2 =>
                match parseValue fuel r2 with
                | some (v, r3) =>
                    match skipWs r3 with
                    | ',' :: r4 =>
                        match parseMembers fuel r4 with
                        | some (ms, r5) => some ((String.mk k, v) :: ms, r5)
                        | none => none
                    | '}' :: r4 => some ([(String.mk k, v)], r4)
                    | _ => none
                | none => none
            | _ => none
        | none => none
    | _ => none

end

/-! ### Derived Deserialize impls

serde's derived struct deserializers require every declared field, ignore
unknown fields, and accept fields in any order; files written by this
program never contain duplicate keys, so first-occurrence lookup suffices. -/

def Json.asString : Json → Option String
  | .str s => some s
  | _ => none

def natDigitsAux : List Char → Nat → Option Nat
  | [], acc => some acc
  | c :: cs, acc =>
      if c.isDigit then natDigitsAux cs (10 * acc + (c.toNat - 48)) else none

/-- Decode a `Uuid`/`NaiveDate` leaf from its (decimal-string, see the
header) serialization. -/
def decodeNatString (j : Json) : Option Nat :=
  match j with
  | .str s =>
      match s.data with
      | [] => none
      | cs => natDigitsAux cs 0
  | _ => none

def Task.fromJson (j : Json) : Option Task :=
  match j with
  | .obj members =>
      match members.lookup "id", members.lookup "description",
            members.lookup "state", members.lookup "created_at",
            members.lookup "updated_at" with
      | some jid, some jdesc, some jstate, some jcreated, some jupdated =>
          do
            let id ← decodeNatString jid
            let description ← jdesc.asString
            let sname ← jstate.asString
            let state ← TaskState.fromSerdeName sname
            let created ← decodeNatString jcreated
            let updated ← decodeNatString jupdated
            pure { id := id, description := description, state := state,
                   created_at := created, updated_at := updated }
      | _, _, _, _, _ => none
  | _ => none

def decodeTasks : List Json → Option (List Task)
  | [] => some []
  | j :: js =>
      match Task.fromJson j, decodeTasks js with
      | some t, some ts => some (t :: ts)
      | _, _ => none

def Database.fromJson (j : Json) : Option Database :=
  match j with
  | .obj members =>
      match members.lookup "name", members.lookup "version",
            members.lookup "tasks" with
      | some jname, some jversion, some (.arr jtasks) =>
          do
            let name ← jname.asString
            let version ← jversion.asString
            let tasks ← decodeTasks jtasks
            pure { name := name, version := version, tasks := tasks }
      | _, _, _ => none
  | _ => none

/-! ### The database manager (src/file_management.rs lines 86-235)

The manager owns the path of the one storage file and the in-memory
`Database`; here the path is replaced by the current contents of that file,
so every operation returns its result together with the manager state after
the call (in-memory database and file contents). -/

/-- Model of `std::io::Error` payloads is elided: only the variant matters. -/
inductive DatabaseError : Type where
  | TaskNotFound (id : Uuid)
  | UuidAlreadyExists (id : Uuid)
  | FailedToReadFile
deriving DecidableEq, Repr

/-- Rust `ToNotDoError` from src/error.rs. -/
inductive ToNotDoError : Type where
  | DatabaseError (e : DatabaseError)
deriving DecidableEq, Repr

structure DatabaseManager : Type where
  /-- contents of the storage file at `db_path` -/
  file : String
  db : Database
deriving DecidableEq, Repr

/-- Rust `File::open` + `write_all` under `OpenOptions::new().write(true)`:
there is no `truncate(true)`, so the bytes are written from offset zero and
any remainder of the previous contents stays in place. -/
def overwrite (old new : String) : String :=
  new ++ old.drop new.length

/-- Rust `DatabaseManager::read` (lines 176-200): parse the file contents as a
`Database`; `serde_json::from_reader` accepts only trailing whitespace after
the value.  `none` models the returned `FailedToReadFile` error. -/
def DatabaseManager.read (contents : String) : Option Database :=
  match parseValue (2 * contents.length + 4) contents.data with
  | some (j, rest) =>
      match skipWs rest with
      | [] => Database.fromJson j
      | _ => none
  | none => none

/-- Rust `DatabaseManager::save` (lines 202-212): pretty-print the database and
write it over the previous file contents without truncating. -/
def DatabaseManager.save (file : String) (db : Database) : String :=
  overwrite file db.jsonPretty

/-- Rust `DatabaseManager::create` (lines 218-234): called with no file at the
path, it creates one and writes the compact serialization of the default
(empty) database. -/
def DatabaseManager.create : DatabaseManager :=
  { file := Database.default.jsonCompact, db := Database.default }

/-- Rust `DatabaseManager::open` (lines 92-103); `open` is a Lean keyword, hence
`openDb`.  Input `none` means no regular file exists at the path; output
`none` models the `expect` panic on an unparsable existing file. -/
def DatabaseManager.openDb (diskFile : Option String) : Option DatabaseManager :=
  match diskFile with
  | none => some DatabaseManager.create
  | some contents =>
      match DatabaseManager.read contents with
      | some db => some { file := contents, db := db }
      | none => none

/-- Rust `DatabaseManager::contains_task` (lines 121-123). -/
def DatabaseManager.contains_task (m : DatabaseManager) (task_id : Uuid) : Bool :=
  m.db.tasks.any fun t => t.id == task_id

/-- Rust `DatabaseManager::add_task` (lines 164-174). -/
def DatabaseManager.add_task (m : DatabaseManager) (task : Task) :
    Except ToNotDoError Unit × DatabaseManager :=
  if m.contains_task task.id then
    (.error (.DatabaseError (.UuidAlreadyExists task.id)), m)
  else
    let db2 : Database := { m.db with tasks := m.db.tasks ++ [task] }
    (.ok (), { file := DatabaseManager.save m.file db2, db := db2 })

/-- Rust `DatabaseManager::delete_task` (lines 125-135): `Vec::retain` keeps the
tasks whose id differs. -/
def DatabaseManager.delete_task (m : DatabaseManager) (task_id : Uuid) :
    Except ToNotDoError Unit × DatabaseManager :=
  if m.contains_task task_id then
    let db2 : Database := { m.db with tasks := m.db.tasks.filter fun t => !(t.id == task_id) }
    (.ok (), { file := DatabaseManager.save m.file db2, db := db2 })
  else
    (.error (.DatabaseError (.TaskNotFound task_id)), m)

/-- Rust `iter_mut().find(p)` followed by a mutation of the found element:
rewrite the first element satisfying `p`, leave the rest alone. -/
def setFirst (p : Task → Bool) (f : Task → Task) : List Task → List Task
  | [] => []
  | t :: ts => if p t then f t :: ts else t :: setFirst p f ts

/-- Rust `DatabaseManager::update_description` (lines 105-119). -/
def DatabaseManager.update_description (today : NaiveDate) (m : DatabaseManager)
    (task_id : Uuid) (description : String) :
    Except ToNotDoError Unit × DatabaseManager :=
  if m.contains_task task_id then
    let db2 : Database :=
      { m.db with
        tasks := setFirst (fun t => t.id == task_id)
          (Task.set_description today description) m.db.tasks }
    (.ok (), { file := DatabaseManager.save m.file db2, db := db2 })
  else
    (.error (.DatabaseError (.TaskNotFound task_id)), m)

/-- Rust `DatabaseManager::set_task_state` (lines 137-147). -/
def DatabaseManager.set_task_state (today : NaiveDate) (m : DatabaseManager)
    (task_id : Uuid) (state : TaskState) :
    Except ToNotDoError Unit × DatabaseManager :=
  if m.contains_task task_id then
    let db2 : Database :=
      { m.db with
        tasks := setFirst (fun t => t.id == task_id)
          (Task.set_state today state) m.db.tasks }
    (.ok (), { file := DatabaseManager.save m.file db2, db := db2 })
  else
    (.error (.DatabaseError (.TaskNotFound task_id)), m)

/-- Rust `DatabaseManager::get_tasks` (lines 149-153): reload the database from
the file (replacing the in-memory one) and return its tasks; on a read
error the `?` operator returns before the assignment, so the in-memory
database is untouched. -/
def DatabaseManager.get_tasks (m : DatabaseManager) :
    Except ToNotDoError (List Task) × DatabaseManager :=
  match DatabaseManager.read m.file with
  | some db => (.ok db.tasks, { m with db := db })
  | none => (.error (.DatabaseError .FailedToReadFile), m)

/-- Rust `DatabaseManager::filter_tasks` (lines 155-162): in-memory only; the
manager is not mutated, so only the returned list is modelled. -/
def DatabaseManager.filter_tasks (m : DatabaseManager) (state : TaskState) : List Task :=
  m.db.tasks.filter fun t => t.state == state

/-! ### Command-line surface (src/cli.rs) and the program entry point
(src/main.rs)

Random id generation (`Uuid::new_v4`) and the current date are passed in
explicitly; `println!` output is modelled as the list of printed lines. -/

/-- Rust `Commands` from src/cli.rs lines 13-31; the `List` variant is renamed
`ListCmd` to avoid the Lean builtin. -/
inductive Commands : Type where
  | Add (task_description : String)
  | Update (task_id : Uuid) (task_description : String)
  | Delete (task_id : Uuid)
  | ListCmd (filter : Option TaskState)
  | MarkDone (task_id : Uuid)
  | MarkInProgress (task_id : Uuid)
deriving DecidableEq, Repr

/-- Rust `{:?}` (derived Debug) output of a `TaskState`. -/
def TaskState.debugStr : TaskState → String
  | .Todo => "Todo"
  | .InProgress => "InProgress"
  | .Done => "Done"

/-- Rust `{:?}` output of an `Option<TaskState>`. -/
def debugOptionTaskState : Option TaskState → String
  | none => "None"
  | some s => "Some(" ++ s.debugStr ++ ")"

/-- Rust `impl Display for Task` (src/file_management.rs lines 37-45). -/
def Task.display (t : Task) : String :=
  "Task: " ++ t.description
    ++ "\nState: " ++ t.state.debugStr
    ++ "\nCreated at: " ++ toString t.created_at
    ++ "\nUpdated at: " ++ toString t.updated_at
    ++ "\nId: " ++ toString t.id

/-- Rust `main` (src/main.rs lines 8-31): parse the arguments, print one
placeholder line per command, and exit.  The body never constructs a
`DatabaseManager`, never touches the storage file (threaded through
unchanged as `dbFile`), and never calls `handle_commands`. -/
def mainRun (cmd : Commands) (dbFile : Option String) :
    List String × Option String :=
  (match cmd with
   | .Add d => ["Adding task: " ++ d]
   | .Update id _ => ["Updating task: " ++ toString id]
   | .Delete id => ["Deleting task: " ++ toString id]
   | .ListCmd filter => ["Listing tasks with filter: " ++ debugOptionTaskState filter]
   | .MarkDone id => ["Marking task as done: " ++ toString id]
   | .MarkInProgress id => ["Marking task as in progress: " ++ toString id],
   dbFile)

/-- Rust `handle_add_task` (src/cli.rs lines 66-75). -/
def handle_add_task (today : NaiveDate) (new_id : Uuid) (task_description : String)
    (m : DatabaseManager) : List String × DatabaseManager :=
  let task := Task.new new_id today task_description
  match m.add_task task with
  | (.ok _, m2) => (["Adding task: " ++ task_description, "Task added successfully"], m2)
  | (.error _, m2) => (["Adding task: " ++ task_description, "Failed to add task"], m2)

/-- Rust `handle_update_task` (src/cli.rs lines 77-88). -/
def handle_update_task (today : NaiveDate) (task_id : Uuid) (task_description : String)
    (m : DatabaseManager) : List String × DatabaseManager :=
  match DatabaseManager.update_description today m task_id task_description with
  | (.ok _, m2) => (["Updating task: " ++ task_description, "Task updated successfully"], m2)
  | (.error _, m2) => (["Updating task: " ++ task_description, "Task not found"], m2)

/-- Rust `handle_delete_task` (src/cli.rs lines 90-95). -/
def handle_delete_task (task_id : Uuid) (m : DatabaseManager) :
    List String × DatabaseManager :=
  match m.delete_task task_id with
  | (.ok _, m2) => (["Task deleted successfully"], m2)
  | (.error _, m2) => (["Task not found"], m2)

/-- The printing loop of `handle_list_tasks`: one divider line before each
task block. -/
def renderTaskBlocks : List Task → List String
  | [] => []
  | t :: ts => "------------------" :: t.display :: renderTaskBlocks ts

/-- Rust `handle_list_tasks` (src/cli.rs lines 97-130). -/
def handle_list_tasks (m : DatabaseManager) (filter : Option TaskState) :
    List String × DatabaseManager :=
  match filter with
  | some f =>
      let header := "Listing tasks with filter: " ++ f.debugStr
      let filtered := m.filter_tasks f
      if filtered.isEmpty then
        ([header, "No tasks found with the specified filter"], m)
      else
        (header :: (renderTaskBlocks filtered ++ ["------------------"]), m)
  | none =>
      match m.get_tasks with
      | (.ok tasks, m2) =>
          if tasks.isEmpty then (["No tasks found"], m2)
          else (renderTaskBlocks tasks ++ ["------------------"], m2)
      | (.error _, m2) => (["Failed to retrieve tasks"], m2)

/-- Rust `handle_mark_done` (src/cli.rs lines 132-137). -/
def handle_mark_done (today : NaiveDate) (task_id : Uuid) (m : DatabaseManager) :
    List String × DatabaseManager :=
  match DatabaseManager.set_task_state today m task_id TaskState.Done with
  | (.ok _, m2) => (["Task marked as done"], m2)
  | (.error _, m2) => (["Task not found"], m2)

/-- Rust `handle_mark_in_progress` (src/cli.rs lines 139-144). -/
def handle_mark_in_progress (today : NaiveDate) (task_id : Uuid) (m : DatabaseManager) :
    List String × DatabaseManager :=
  match DatabaseManager.set_task_state today m task_id TaskState.InProgress with
  | (.ok _, m2) => (["Task marked as in progress"], m2)
  | (.error _, m2) => (["Task not found"], m2)

/-- Rust `handle_commands` (src/cli.rs lines 40-64): exactly one handler, hence
exactly one store operation, per parsed command. -/
def handle_commands (today : NaiveDate) (new_id : Uuid) (cmd : Commands)
    (m : DatabaseManager) : List String × DatabaseManager :=
  match cmd with
  | .Add d => handle_add_task today new_id d m
  | .Update id d => handle_update_task today id d m
  | .Delete id => handle_delete_task id m
  | .ListCmd f => handle_list_tasks m f
  | .MarkDone id => handle_mark_done today id m
  | .MarkInProgress id => handle_mark_in_progress today id m

/-! ### Reachable store states

The mutating store operations, each tagged with the date at which it runs;
outside `file_management.rs` tasks can only be built with `Task::new` (the
fields are private), so `add` carries the description and the fresh id. -/

inductive Op : Type where
  | add (new_id : Uuid) (description : String)
  | update (task_id : Uuid) (description : String)
  | setState (task_id : Uuid) (state : TaskState)
  | delete (task_id : Uuid)

/-- Run one mutating operation at date `today`, keeping only the store. -/
def applyOp (today : NaiveDate) (m : DatabaseManager) : Op → DatabaseManager
  | .add new_id d => (m.add_task (Task.new new_id today d)).2
  | .update id d => (DatabaseManager.update_description today m id d).2
  | .setState id s => (DatabaseManager.set_task_state today m id s).2
  | .delete id => (m.delete_task id).2

/-- Store states reachable from a fresh (empty) store by mutating
operations run at nondecreasing dates, indexed by the date last reached. -/
inductive Reachable : NaiveDate → DatabaseManager → Prop where
  | init (d : NaiveDate) : Reachable d DatabaseManager.create
  | step {d d' : NaiveDate} {m : DatabaseManager} (op : Op) :
      Reachable d m → d ≤ d' → Reachable d' (applyOp d' m op)

/-! ### The concrete scenario of spec §8

Fresh path, `add` of a "buy milk" task, `set_state(id, Done)`, `delete(id)`,
with `list_all` after each step.  The current date and the generated id are
fixed arbitrary values. -/

/-- Current date of the scenario, as a day ordinal. -/
def scenarioToday : NaiveDate := 738000

/-- The id `Uuid::new_v4` hands to the scenario's one task. -/
def scenarioId : Uuid := 7

/-- The task built by the dispatcher for `add {description: "buy milk"}`. -/
def scenarioTask : Task := Task.new scenarioId scenarioToday "buy milk"

/-- Result and store after `add` on the freshly created store. -/
def scenarioAdd : Except ToNotDoError Unit × DatabaseManager :=
  DatabaseManager.create.add_task scenarioTask

def scenarioStore1 : DatabaseManager := scenarioAdd.2

/-- Result and store after `set_state(id, Done)`. -/
def scenarioMark : Except ToNotDoError Unit × DatabaseManager :=
  DatabaseManager.set_task_state scenarioToday scenarioStore1 scenarioId TaskState.Done

def scenarioStore2 : DatabaseManager := scenarioMark.2

/-- Result and store after `delete(id)`. -/
def scenarioDel : Except ToNotDoError Unit × DatabaseManager :=
  scenarioStore2.delete_task scenarioId

def scenarioStore3 : DatabaseManager := scenarioDel.2

deriving instance DecidableEq for Except

/-! ### Helper lemmas -/

theorem contains_task_eq_false {m : DatabaseManager} {task_id : Uuid}
    (h : ∀ t ∈ m.db.tasks, t.id ≠ task_id) :
    m.contains_task task_id = false := by
  unfold DatabaseManager.contains_task
  rw [List.any_eq_false]
  intro t ht
  simpa using h t ht

theorem contains_task_eq_true {m : DatabaseManager} {task_id : Uuid}
    (h : ∃ t ∈ m.db.tasks, t.id = task_id) :
    m.contains_task task_id = true := by
  obtain ⟨t, ht, hid⟩ := h
  unfold DatabaseManager.contains_task
  rw [List.any_eq_true]
  exact ⟨t, ht, by simpa using hid⟩

theorem map_setFirst_id (p : Task → Bool) (f : Task → Task)
    (hf : ∀ t, (f t).id = t.id) :
    ∀ l : List Task, (setFirst p f l).map Task.id = l.map Task.id
  | [] => rfl
  | t :: ts => by
    by_cases hp : p t
    · simp [setFirst, hp, hf]
    · simp [setFirst, hp, map_setFirst_id p f hf ts]

theorem mem_setFirst {p : Task → Bool} {f : Task → Task} :
    ∀ {l : List Task} {u : Task}, u ∈ setFirst p f l → u ∈ l ∨ ∃ t ∈ l, u = f t := by
  intro l
  induction l with
  | nil => intro u h; exact absurd h (List.not_mem_nil u)
  | cons a l ih =>
    intro u h
    unfold setFirst at h
    by_cases hp : p a
    · rw [if_pos hp] at h
      rcases List.mem_cons.mp h with h1 | h1
      · exact Or.inr ⟨a, List.mem_cons_self a l, h1⟩
      · exact Or.inl (List.mem_cons_of_mem a h1)
    · rw [if_neg hp] at h
      rcases List.mem_cons.mp h with h1 | h1
      · exact Or.inl (h1 ▸ List.mem_cons_self a l)
      · rcases ih h1 with h2 | ⟨t, ht, h2⟩
        · exact Or.inl (List.mem_cons_of_mem a h2)
        · exact Or.inr ⟨t, List.mem_cons_of_mem a ht, h2⟩

theorem map_ite_of_no_match {task_id : Uuid} (f : Task → Task) :
    ∀ {l : List Task}, (∀ u ∈ l, u.id ≠ task_id) →
      (l.map fun u => if u.id = task_id then f u else u) = l := by
  intro l
  induction l with
  | nil => intro _; rfl
  | cons a l ih =>
    intro h
    rw [List.map_cons, if_neg (h a (List.mem_cons_self a l)),
      ih fun u hu => h u (List.mem_cons_of_mem a hu)]

theorem setFirst_eq_map {task_id : Uuid} (f : Task → Task) :
    ∀ {l : List Task}, (l.map Task.id).Nodup →
      setFirst (fun t => t.id == task_id) f l =
        l.map fun u => if u.id = task_id then f u else u := by
  intro l
  induction l with
  | nil => intro _; rfl
  | cons a l ih =>
    intro hnd
    rw [List.map_cons, List.nodup_cons] at hnd
    by_cases ha : a.id = task_id
    · unfold setFirst
      rw [if_pos (by simpa using ha), List.map_cons, if_pos ha,
        map_ite_of_no_match f fun u hu h2 =>
          hnd.1 (by rw [ha, ← h2]; exact List.mem_map_of_mem Task.id hu)]
    · unfold setFirst
      rw [if_neg (by simpa using ha), List.map_cons, if_neg ha, ih hnd.2]

theorem filter_state_partition : ∀ l : List Task,
    (l.filter fun t => t.state == TaskState.Todo).length
      + (l.filter fun t => t.state == TaskState.InProgress).length
      + (l.filter fun t => t.state == TaskState.Done).length = l.length := by
  intro l
  induction l with
  | nil => rfl
  | cons a l ih =>
    cases h : a.state <;> simp [List.filter_cons, h] <;> omega

theorem forall_ne_of_contains_false {m : DatabaseManager} {task_id : Uuid}
    (h : m.contains_task task_id = false) :
    ∀ t ∈ m.db.tasks, t.id ≠ task_id := by
  intro t ht
  unfold DatabaseManager.contains_task at h
  rw [List.any_eq_false] at h
  simpa using h t ht

theorem add_task_hit (m : DatabaseManager) (t : Task)
    (h : ∃ u ∈ m.db.tasks, u.id = t.id) :
    m.add_task t = (.error (.DatabaseError (.UuidAlreadyExists t.id)), m) := by
  unfold DatabaseManager.add_task
  rw [contains_task_eq_true h]
  simp

theorem add_task_success (m : DatabaseManager) (t : Task)
    (h : ∀ u ∈ m.db.tasks, u.id ≠ t.id) :
    m.add_task t = (.ok (),
      { file := DatabaseManager.save m.file { m.db with tasks := m.db.tasks ++ [t] },
        db := { m.db with tasks := m.db.tasks ++ [t] } }) := by
  unfold DatabaseManager.add_task
  rw [contains_task_eq_false h]
  simp

/-! ### The claims -/

/-- Claim C5: for every store state and every id not present in it,
`delete(id)` returns the `TaskNotFound(id)` error and both the in-memory
task collection and the storage-file contents are exactly as before the
call (the manager is returned unchanged; no write happens). -/
theorem delete_task_miss (m : DatabaseManager) (task_id : Uuid)
    (h : ∀ t ∈ m.db.tasks, t.id ≠ task_id) :
    m.delete_task task_id =
      (.error (.DatabaseError (.TaskNotFound task_id)), m) := by
  unfold DatabaseManager.delete_task
  rw [contains_task_eq_false h]
  simp

/-- Witness for C5: the fresh empty store and the absent id 3. -/
theorem delete_task_miss_witness :
    (∀ t ∈ DatabaseManager.create.db.tasks, t.id ≠ 3) ∧
    DatabaseManager.create.delete_task 3 =
      (.error (.DatabaseError (.TaskNotFound 3)), DatabaseManager.create) :=
  ⟨by decide, delete_task_miss DatabaseManager.create 3 (by decide)⟩

/-- Claim C10: for every store state and every id not present in it,
`update_description(id, text)` and `set_state(id, s)` both return the
`TaskNotFound(id)` error without modifying the in-memory collection and
without writing to the storage file (the manager is returned unchanged). -/
theorem update_ops_miss (today : NaiveDate) (m : DatabaseManager)
    (task_id : Uuid) (description : String) (state : TaskState)
    (h : ∀ t ∈ m.db.tasks, t.id ≠ task_id) :
    DatabaseManager.update_description today m task_id description =
      (.error (.DatabaseError (.TaskNotFound task_id)), m) ∧
    DatabaseManager.set_task_state today m task_id state =
      (.error (.DatabaseError (.TaskNotFound task_id)), m) := by
  unfold DatabaseManager.update_description DatabaseManager.set_task_state
  rw [contains_task_eq_false h]
  simp

/-- Witness for C10: a store holding one task with id 1; the absent id 2. -/
theorem update_ops_miss_witness :
    (∀ t ∈ (DatabaseManager.mk ""
        (Database.mk "to-not-do" "0.1.0" [Task.new 1 0 "a"])).db.tasks,
      t.id ≠ 2) ∧
    (DatabaseManager.update_description 5
        (DatabaseManager.mk "" (Database.mk "to-not-do" "0.1.0" [Task.new 1 0 "a"]))
        2 "x" =
      (.error (.DatabaseError (.TaskNotFound 2)),
        DatabaseManager.mk "" (Database.mk "to-not-do" "0.1.0" [Task.new 1 0 "a"])) ∧
     DatabaseManager.set_task_state 5
        (DatabaseManager.mk "" (Database.mk "to-not-do" "0.1.0" [Task.new 1 0 "a"]))
        2 TaskState.Done =
      (.error (.DatabaseError (.TaskNotFound 2)),
        DatabaseManager.mk "" (Database.mk "to-not-do" "0.1.0" [Task.new 1 0 "a"]))) :=
  ⟨by decide, update_ops_miss 5
      (DatabaseManager.mk "" (Database.mk "to-not-do" "0.1.0" [Task.new 1 0 "a"]))
      2 "x" TaskState.Done (by decide)⟩

/-- Claim C6: `add` of a task whose id already occurs fails with
`UuidAlreadyExists` and leaves the store unchanged (no append); adding a
task to a store not containing its id and then a second task with the same
id leaves the task count larger by exactly one, not two. -/
theorem add_task_unique (m : DatabaseManager) (t t2 : Task) :
    ((∃ u ∈ m.db.tasks, u.id = t.id) →
      m.add_task t = (.error (.DatabaseError (.UuidAlreadyExists t.id)), m)) ∧
    ((∀ u ∈ m.db.tasks, u.id ≠ t.id) → t2.id = t.id →
      ((m.add_task t).2.add_task t2).1 =
        .error (.DatabaseError (.UuidAlreadyExists t2.id)) ∧
      ((m.add_task t).2.add_task t2).2.db.tasks.length =
        m.db.tasks.length + 1) := by
  refine ⟨fun hdup => add_task_hit m t hdup, fun hmiss heq => ?_⟩
  rw [add_task_success m t hmiss]
  rw [add_task_hit
    { file := DatabaseManager.save m.file { m.db with tasks := m.db.tasks ++ [t] },
      db := { m.db with tasks := m.db.tasks ++ [t] } } t2
    ⟨t, List.mem_append_right _ (List.mem_singleton_self t), heq.symm⟩]
  exact ⟨rfl, by simp⟩

/-- Witness for C6: fresh store, two tasks that share id 5. -/
theorem add_task_unique_witness :
    (∀ u ∈ DatabaseManager.create.db.tasks, u.id ≠ (Task.new 5 0 "a").id) ∧
    (Task.new 5 0 "b").id = (Task.new 5 0 "a").id ∧
    (((DatabaseManager.create.add_task (Task.new 5 0 "a")).2.add_task
        (Task.new 5 0 "b")).1 =
      .error (.DatabaseError (.UuidAlreadyExists (Task.new 5 0 "b").id)) ∧
     ((DatabaseManager.create.add_task (Task.new 5 0 "a")).2.add_task
        (Task.new 5 0 "b")).2.db.tasks.length =
      DatabaseManager.create.db.tasks.length + 1) :=
  ⟨by decide, by decide,
    (add_task_unique DatabaseManager.create (Task.new 5 0 "a")
        (Task.new 5 0 "b")).2 (by decide) (by decide)⟩

/-- Claim C8: `filter_by_state(s)` returns exactly the tasks whose state
equals `s`, in their original relative order (a sublist of the collection),
and the three per-state result lengths sum to the total task count. -/
theorem filter_tasks_spec (m : DatabaseManager) (s : TaskState) :
    (m.filter_tasks s).Sublist m.db.tasks ∧
    (∀ t, t ∈ m.filter_tasks s ↔ t ∈ m.db.tasks ∧ t.state = s) ∧
    (m.filter_tasks TaskState.Todo).length
      + (m.filter_tasks TaskState.InProgress).length
      + (m.filter_tasks TaskState.Done).length = m.db.tasks.length := by
  unfold DatabaseManager.filter_tasks
  refine ⟨List.filter_sublist _, fun t => ?_, filter_state_partition m.db.tasks⟩
  rw [List.mem_filter]
  simp

/-- Claim C3: `list_all` reloads the Database from the file contents before
returning the full task sequence (and installs the reloaded database in
memory), whereas `filter_by_state` computes from the in-memory sequence
only — its result does not depend on the file contents at all. -/
theorem list_all_reloads_filter_does_not (m : DatabaseManager) :
    (∀ db2, DatabaseManager.read m.file = some db2 →
      m.get_tasks = (.ok db2.tasks, { m with db := db2 })) ∧
    (∀ f2 s, DatabaseManager.filter_tasks { m with file := f2 } s =
      DatabaseManager.filter_tasks m s) := by
  refine ⟨fun db2 h => ?_, fun f2 s => rfl⟩
  unfold DatabaseManager.get_tasks
  rw [h]

/-- Witness for C3: the freshly created store, whose file parses back to
the default database. -/
theorem list_all_reloads_witness :
    DatabaseManager.read DatabaseManager.create.file = some Database.default ∧
    DatabaseManager.create.get_tasks =
      (.ok Database.default.tasks,
        { DatabaseManager.create with db := Database.default }) :=
  ⟨by decide, (list_all_reloads_filter_does_not DatabaseManager.create).1
      Database.default (by decide)⟩

/-- Claim C7: on a store (with pairwise-distinct ids) containing a task
with the given id, `set_state(id, s)` succeeds and the new task sequence is
the old one with exactly that task's `state` replaced by `s` and its
`updated_at` set to the current date; its `id`, `description` and
`created_at`, and every other task, are unchanged. -/
theorem set_task_state_frame (today : NaiveDate) (m : DatabaseManager)
    (task_id : Uuid) (s : TaskState)
    (hnd : (m.db.tasks.map Task.id).Nodup)
    (hmem : ∃ t ∈ m.db.tasks, t.id = task_id) :
    (DatabaseManager.set_task_state today m task_id s).1 = .ok () ∧
    (DatabaseManager.set_task_state today m task_id s).2.db.tasks =
      m.db.tasks.map fun u =>
        if u.id = task_id then { u with state := s, updated_at := today }
        else u := by
  unfold DatabaseManager.set_task_state
  rw [contains_task_eq_true hmem]
  constructor
  · simp
  · simp only [if_true]
    exact setFirst_eq_map (Task.set_state today s) hnd

/-- Witness for C7: a two-task store, updating the task with id 2. -/
theorem set_task_state_frame_witness :
    (((DatabaseManager.mk ""
        (Database.mk "to-not-do" "0.1.0" [Task.new 1 0 "a", Task.new 2 0 "b"])).db.tasks.map
          Task.id).Nodup) ∧
    (∃ t ∈ (DatabaseManager.mk ""
        (Database.mk "to-not-do" "0.1.0" [Task.new 1 0 "a", Task.new 2 0 "b"])).db.tasks,
      t.id = 2) ∧
    ((DatabaseManager.set_task_state 9
        (DatabaseManager.mk ""
          (Database.mk "to-not-do" "0.1.0" [Task.new 1 0 "a", Task.new 2 0 "b"]))
        2 TaskState.Done).1 = .ok () ∧
     (DatabaseManager.set_task_state 9
        (DatabaseManager.mk ""
          (Database.mk "to-not-do" "0.1.0" [Task.new 1 0 "a", Task.new 2 0 "b"]))
        2 TaskState.Done).2.db.tasks =
      [Task.new 1 0 "a", Task.new 2 0 "b"].map fun u =>
        if u.id = 2 then { u with state := TaskState.Done, updated_at := 9 }
        else u) :=
  ⟨by decide, ⟨Task.new 2 0 "b", by decide, rfl⟩,
    set_task_state_frame 9
      (DatabaseManager.mk ""
        (Database.mk "to-not-do" "0.1.0" [Task.new 1 0 "a", Task.new 2 0 "b"]))
      2 TaskState.Done (by decide) ⟨Task.new 2 0 "b", by decide, rfl⟩⟩

/-! ### The store invariant (claim C9) -/

theorem inv_mono {d d' : NaiveDate} (hle : d ≤ d') {m : DatabaseManager}
    (h : (m.db.tasks.map Task.id).Nodup ∧
      ∀ t ∈ m.db.tasks, t.created_at ≤ t.updated_at ∧ t.updated_at ≤ d) :
    (m.db.tasks.map Task.id).Nodup ∧
      ∀ t ∈ m.db.tasks, t.created_at ≤ t.updated_at ∧ t.updated_at ≤ d' :=
  ⟨h.1, fun t ht => ⟨(h.2 t ht).1, le_trans (h.2 t ht).2 hle⟩⟩

/-- Preservation of the dated invariant by an in-place update of the first
task matching a predicate, when the update keeps `id` and `created_at` and
stamps `updated_at` with the (not earlier) current date. -/
theorem setFirst_inv {d d' : NaiveDate} (hle : d ≤ d') (f : Task → Task)
    (hfid : ∀ t, (f t).id = t.id)
    (hfc : ∀ t, (f t).created_at = t.created_at)
    (hfu : ∀ t, (f t).updated_at = d')
    {l : List Task} (hnd : (l.map Task.id).Nodup)
    (hinv : ∀ t ∈ l, t.created_at ≤ t.updated_at ∧ t.updated_at ≤ d)
    (p : Task → Bool) :
    ((setFirst p f l).map Task.id).Nodup ∧
    ∀ t ∈ setFirst p f l, t.created_at ≤ t.updated_at ∧ t.updated_at ≤ d' := by
  constructor
  · rw [map_setFirst_id p f hfid]
    exact hnd
  · intro t ht
    rcases mem_setFirst ht with h1 | ⟨u, hu, h1⟩
    · exact ⟨(hinv t h1).1, le_trans (hinv t h1).2 hle⟩
    · subst h1
      refine ⟨?_, le_of_eq (hfu u)⟩
      rw [hfc u, hfu u]
      exact le_trans (hinv u hu).1 (le_trans (hinv u hu).2 hle)

/-- The dated inductive invariant: distinct ids, and every task's dates are
ordered and bounded by the current date. -/
theorem reachable_aux {d : NaiveDate} {m : DatabaseManager}
    (h : Reachable d m) :
    (m.db.tasks.map Task.id).Nodup ∧
    ∀ t ∈ m.db.tasks, t.created_at ≤ t.updated_at ∧ t.updated_at ≤ d := by
  induction h with
  | init d =>
      exact ⟨by simp [DatabaseManager.create, Database.default],
        by simp [DatabaseManager.create, Database.default]⟩
  | @step d d' m op hr hle ih =>
      cases op with
      | add new_id desc =>
          by_cases hc : m.contains_task new_id
          · have happ : applyOp d' m (Op.add new_id desc) = m := by
              simp [applyOp, DatabaseManager.add_task, Task.new, hc]
            rw [happ]
            exact inv_mono hle ih
          · have hc2 : m.contains_task new_id = false := by
              simpa using hc
            have happ : applyOp d' m (Op.add new_id desc) =
                { file := DatabaseManager.save m.file
                    { m.db with tasks := m.db.tasks ++ [Task.new new_id d' desc] },
                  db := { m.db with
                    tasks := m.db.tasks ++ [Task.new new_id d' desc] } } := by
              simp [applyOp, DatabaseManager.add_task, Task.new, hc]
            rw [happ]
            constructor
            · rw [List.map_append]
              refine List.Nodup.append ih.1 (by simp) ?_
              intro x hx hx2
              rw [List.map_singleton, List.mem_singleton] at hx2
              rcases List.mem_map.mp hx with ⟨u, hu, hux⟩
              exact forall_ne_of_contains_false hc2 u hu (by rw [hux, hx2]; rfl)
            · intro t ht
              rcases List.mem_append.mp ht with h1 | h1
              · exact ⟨(ih.2 t h1).1, le_trans (ih.2 t h1).2 hle⟩
              · rw [List.mem_singleton] at h1
                subst h1
                exact ⟨le_refl d', le_refl d'⟩
      | update task_id desc =>
          by_cases hc : m.contains_task task_id
          · have happ : applyOp d' m (Op.update task_id desc) =
                { file := DatabaseManager.save m.file
                    { m.db with tasks := setFirst (fun t => t.id == task_id) (Task.set_description d' desc) m.db.tasks },
                  db := { m.db with tasks := setFirst (fun t => t.id == task_id) (Task.set_description d' desc) m.db.tasks } } := by
              simp [applyOp, DatabaseManager.update_description, hc]
            rw [happ]
            exact setFirst_inv hle (Task.set_description d' desc)
              (fun t => rfl) (fun t => rfl) (fun t => rfl) ih.1 ih.2 _
          · have happ : applyOp d' m (Op.update task_id desc) = m := by
              simp [applyOp, DatabaseManager.update_description, hc]
            rw [happ]
            exact inv_mono hle ih
      | setState task_id s =>
          by_cases hc : m.contains_task task_id
          · have happ : applyOp d' m (Op.setState task_id s) =
                { file := DatabaseManager.save m.file
                    { m.db with tasks := setFirst (fun t => t.id == task_id) (Task.set_state d' s) m.db.tasks },
                  db := { m.db with tasks := setFirst (fun t => t.id == task_id) (Task.set_state d' s) m.db.tasks } } := by
              simp [applyOp, DatabaseManager.set_task_state, hc]
            rw [happ]
            exact setFirst_inv hle (Task.set_state d' s)
              (fun t => rfl) (fun t => rfl) (fun t => rfl) ih.1 ih.2 _
          · have happ : applyOp d' m (Op.setState task_id s) = m := by
              simp [applyOp, DatabaseManager.set_task_state, hc]
            rw [happ]
            exact inv_mono hle ih
      | delete task_id =>
          by_cases hc : m.contains_task task_id
          · have happ : applyOp d' m (Op.delete task_id) =
                { file := DatabaseManager.save m.file
                    { m.db with tasks := m.db.tasks.filter fun t => !(t.id == task_id) },
                  db := { m.db with
                    tasks := m.db.tasks.filter fun t => !(t.id == task_id) } } := by
              simp [applyOp, DatabaseManager.delete_task, hc]
            rw [happ]
            constructor
            · exact ((List.filter_sublist _).map Task.id).nodup ih.1
            · intro t ht
              have hmem := (List.mem_filter.mp ht).1
              exact ⟨(ih.2 t hmem).1, le_trans (ih.2 t hmem).2 hle⟩
          · have happ : applyOp d' m (Op.delete task_id) = m := by
              simp [applyOp, DatabaseManager.delete_task, hc]
            rw [happ]
            exact inv_mono hle ih

/-- Claim C9: in every store state reachable from the fresh empty store by
any sequence of add, update_description, set_state and delete operations
(run at nondecreasing dates), all task ids are pairwise distinct, every
task's state is one of the three enumeration values, and
`updated_at ≥ created_at` holds for every task. -/
theorem store_invariant {d : NaiveDate} {m : DatabaseManager}
    (h : Reachable d m) :
    (m.db.tasks.map Task.id).Nodup ∧
    ∀ t ∈ m.db.tasks,
      (t.state = TaskState.Todo ∨ t.state = TaskState.InProgress ∨
        t.state = TaskState.Done) ∧
      t.created_at ≤ t.updated_at := by
  obtain ⟨h1, h2⟩ := reachable_aux h
  refine ⟨h1, fun t ht => ⟨?_, (h2 t ht).1⟩⟩
  cases t.state
  · exact Or.inl rfl
  · exact Or.inr (Or.inl rfl)
  · exact Or.inr (Or.inr rfl)

/-- Witness for C9: the store reached by one `add` at date 0. -/
theorem store_invariant_witness :
    ((applyOp 0 DatabaseManager.create (Op.add 7 "x")).db.tasks.map Task.id).Nodup ∧
    ∀ t ∈ (applyOp 0 DatabaseManager.create (Op.add 7 "x")).db.tasks,
      (t.state = TaskState.Todo ∨ t.state = TaskState.InProgress ∨
        t.state = TaskState.Done) ∧
      t.created_at ≤ t.updated_at :=
  store_invariant (Reachable.step (Op.add 7 "x") (Reachable.init 0) (Nat.le_refl 0))

set_option maxRecDepth 4000

/-- Claim C1, evaluated: in the spec §8 scenario the first two legs hold as
claimed — after `add` on the fresh store, `list_all` yields exactly the one
`Todo` task; after `set_state(id, Done)` it yields that task with state
`Done` and `updated_at` equal to the current date — but the final leg
fails: `delete(id)` succeeds, yet the following `list_all` returns the
`FailedToReadFile` error instead of the empty sequence, because the
non-truncating `save` left bytes of the previous, longer serialization
behind the new one and the reload cannot parse the file. -/
theorem scenario_trace :
    scenarioAdd.1 = .ok () ∧
    (DatabaseManager.get_tasks scenarioStore1).1 = .ok [scenarioTask] ∧
    scenarioTask.state = TaskState.Todo ∧
    scenarioMark.1 = .ok () ∧
    (DatabaseManager.get_tasks scenarioStore2).1 =
      .ok [{ scenarioTask with state := TaskState.Done, updated_at := scenarioToday }] ∧
    scenarioDel.1 = .ok () ∧
    (DatabaseManager.get_tasks scenarioStore3).1 =
      .error (.DatabaseError .FailedToReadFile) :=
  ⟨by decide, by decide, by decide, by decide, by decide, by decide, by decide⟩

/-- Claim C2, evaluated: `save` opens the storage file for writing without
truncating it, so a successful mutating call whose new serialization is
shorter than the previous contents does not leave the file equal to the
serialization alone.  After the scenario's successful `delete`, the
in-memory database is the empty default one, but the file is its pretty
serialization followed by the stale tail of the previous one-task
serialization. -/
theorem save_not_full_rewrite :
    scenarioDel.1 = .ok () ∧
    scenarioStore3.db = Database.default ∧
    scenarioStore3.file = Database.default.jsonPretty ++
      "  \x7b\n      \"id\": \"7\",\n      \"description\": \"buy milk\",\n      \"state\": \"Done\",\n      \"created_at\": \"738000\",\n      \"updated_at\": \"738000\"\n    \x7d\n  ]\n\x7d" ∧
    scenarioStore3.file ≠ Database.default.jsonPretty :=
  ⟨by decide, by decide, by decide, by decide⟩

/-- Claim C4, evaluated: `main` only prints one placeholder line for the
parsed command and exits; it never opens the store, never calls
`handle_commands`, and performs no store operation.  For `add "buy milk"`
on a system whose storage file holds a fresh store, the run prints the
placeholder alone (not the dispatcher's result line) and the storage file
is untouched — no task is added. -/
theorem main_no_store_call :
    mainRun (Commands.Add "buy milk") (some DatabaseManager.create.file) =
      (["Adding task: buy milk"], some DatabaseManager.create.file) := rfl

end ToNotDo
